import Mathlib

/-!
Verification of the Asset Management Dashboard (`src/dashboard.py`).

A pandas DataFrame is modelled as a `Table`: a list of column names plus a
list of rows, each row a list of cells.  A cell is text, a number, a parsed
timestamp (the result of `pd.to_datetime`; time of day is never used by the
dashboard, so only the calendar date is kept), or the missing marker (NaN).
The recognized categorical columns (Company, Building, Room Name, Status,
Active) hold text values where they are non-missing.
-/

/-- One cell of the asset table.  `missing` is the NaN marker of text and
numeric columns; `missingDate` is the NaT marker that `pd.to_datetime` leaves
in the coerced date columns. -/
inductive Cell where
  | str (s : String)
  | num (n : Int)
  | date (y m d : Nat)
  | missing
  | missingDate
deriving DecidableEq, Repr

/-- A loaded table: column names plus rows of cells. -/
structure Table where
  cols : List String
  rows : List (List Cell)
deriving DecidableEq, Repr

/-- Reading row `r` at column `c` (`df.loc[i, c]`).  An absent column or a
short row reads as missing. -/
def lookupCell (cols : List String) (r : List Cell) (c : String) : Cell :=
  match cols.indexOf? c with
  | some i => r.getD i Cell.missing
  | none => Cell.missing

/-- The comparison `df[c] == v` between a cell and a selector value: true only
for an exactly equal text cell; a missing cell (NaN) compares unequal. -/
def cellEqStr : Cell → String → Bool
  | Cell.str s, v => s == v
  | _, _ => false

/-- Row selection `df = df[df[c] == v]`. -/
def filterEq (t : Table) (c v : String) : Table :=
  { t with rows := t.rows.filter (fun r => cellEqStr (lookupCell t.cols r c) v) }

/-- One sidebar filter block of `main`: the filter is applied only when the
column is present and the selection is not the `All` sentinel
(`if c in df.columns: ... if selected != 'All': df = df[df[c] == selected]`). -/
def applyCatFilter (t : Table) (c sel : String) : Table :=
  if c ∈ t.cols ∧ sel ≠ "All" then filterEq t c sel else t

/-- The five sidebar selections (the selectbox values; `All` means no filter). -/
structure Selections where
  company : String
  building : String
  room : String
  status : String
  active : String
deriving DecidableEq, Repr

/-- The sidebar filters of `main`, applied to `df` in the source's fixed
order: Company, Building, Room Name, Status, Active. -/
def applySidebarFilters (t : Table) (s : Selections) : Table :=
  applyCatFilter (applyCatFilter (applyCatFilter (applyCatFilter
    (applyCatFilter t "Company" s.company)
    "Building" s.building) "Room Name" s.room) "Status" s.status) "Active" s.active

/-- Row predicate of one sidebar filter block: vacuously true when the column
is absent or the selection is the `All` sentinel. -/
def rowPass (cols : List String) (c sel : String) (r : List Cell) : Prop :=
  c ∈ cols → sel ≠ "All" → cellEqStr (lookupCell cols r c) sel = true

instance (cols : List String) (c sel : String) (r : List Cell) :
    Decidable (rowPass cols c sel r) := by
  unfold rowPass
  infer_instance

/-- All cells of column `c`, in row order (`df[c]`). -/
def colCells (t : Table) (c : String) : List Cell :=
  t.rows.map (fun r => lookupCell t.cols r c)

/-- Non-missing values of a categorical column, `df[c].dropna()` (the
recognized categorical columns hold text values). -/
def dropnaStrs (t : Table) (c : String) : List String :=
  (colCells t c).filterMap (fun x => match x with | Cell.str s => some s | _ => none)

/-- Selector options `['All'] + sorted(df[c].dropna().unique().tolist())`.
`unique` keeps one copy of each value and `sorted` orders them, so the result
after the sentinel is the sorted duplicate-free list of present values. -/
def selectorOptions (t : Table) (c : String) : List String :=
  "All" :: List.insertionSort (· ≤ ·) (dropnaStrs t c).dedup

/-- Hard-coded option list of the Active selector
(`st.sidebar.selectbox("Active Status", ['All', 'Yes', 'No'])`). -/
def activeOptions : List String := ["All", "Yes", "No"]

/-- Zero padding of a month or day number to two digits. -/
def pad2 (n : Nat) : String := if n < 10 then "0" ++ toString n else toString n

/-- Base text rendering of a cell: text unchanged, whole numbers printed
plain, timestamps printed as an ISO calendar date, NaN as nan and NaT as
NaT.  Column-dtype effects of `astype(str)` are layered on by
`renderCell`. -/
def cellStr : Cell → String
  | Cell.str s => s
  | Cell.num n => toString n
  | Cell.date y m d => toString y ++ "-" ++ pad2 m ++ "-" ++ pad2 d
  | Cell.missing => "nan"
  | Cell.missingDate => "NaT"

/-- Column dtypes of the loaded table that matter for text rendering. -/
inductive DType where
  | text
  | intCol
  | floatCol
  | dateCol
deriving DecidableEq, Repr

/-- Dtype of a column: a column touched by date coercion is datetime (its
missing marker is NaT), an all-number column is integer, a number column
containing a missing value was upcast to float, anything else is text. -/
def colDType (cells : List Cell) : DType :=
  if cells.any (fun x => match x with
      | Cell.date _ _ _ => true | Cell.missingDate => true | _ => false) then
    DType.dateCol
  else if cells.all (fun x => match x with | Cell.num _ => true | _ => false) then
    DType.intCol
  else if cells.all (fun x => match x with
      | Cell.num _ => true | Cell.missing => true | _ => false) then
    DType.floatCol
  else DType.text

/-- Text rendering `astype(str)` of one cell given its column's dtype: float
columns print whole numbers with a trailing .0 and their missing values as
nan, datetime columns print missing values as NaT. -/
def renderCell : DType → Cell → String
  | DType.floatCol, Cell.num n => toString n ++ ".0"
  | DType.dateCol, Cell.missing => "NaT"
  | _, c => cellStr c

/-- Text renderings `df.astype(str)` of one row, one per column, using each
column's dtype in the table. -/
def rowRender (t : Table) (r : List Cell) : List String :=
  (List.range t.cols.length).map (fun j =>
    renderCell (colDType (t.rows.map (fun row => row.getD j Cell.missing)))
      (r.getD j Cell.missing))

/-- Lower-casing of a character sequence. -/
def lowerChars (l : List Char) : List Char := l.map Char.toLower

/-- The spec's wording of the search: a case-insensitive literal substring
test of the term against a cell's text.  The source instead hands the term
to `str.contains` with its `regex=True` default; the two agree exactly on
terms free of regex metacharacters. -/
def strContainsCI (hay pat : String) : Bool :=
  ((lowerChars hay.toList).tails).any (fun suf => (lowerChars pat.toList).isPrefixOf suf)

/-- Single-character regex atoms: a plain character, or the any-character dot,
which matches every character except a newline. -/
inductive Base where
  | lit (c : Char)
  | dot
deriving DecidableEq, Repr

/-- One piece of a pattern: an atom, possibly under a postfix quantifier. -/
inductive Piece where
  | one (b : Base)
  | star (b : Base)
  | plus (b : Base)
  | opt (b : Base)
deriving DecidableEq, Repr

/-- The regular-expression metacharacters of Python `re`. -/
def isMetaChar (c : Char) : Bool :=
  c == '.' || c == '^' || c == '$' || c == '*' || c == '+' || c == '?' ||
    c == '\x7b' || c == '\x7d' || c == '[' || c == ']' || c == '\\' ||
    c == '|' || c == '(' || c == ')'

/-- Parse one pattern atom: the dot or a plain character.  The remaining
metacharacters open constructs outside the modelled fragment. -/
def parseBase (c : Char) : Option Base :=
  if c == '.' then some Base.dot
  else if isMetaChar c then none
  else some (Base.lit c)

/-- Read a postfix quantifier character. -/
def quantOf (q : Char) (b : Base) : Option Piece :=
  if q == '*' then some (Piece.star b)
  else if q == '+' then some (Piece.plus b)
  else if q == '?' then some (Piece.opt b)
  else none

/-- Parse a search term as a regex pattern: a sequence of atoms, each with an
optional postfix quantifier.  This is the fragment of Python `re` that the
theorems below exercise; classes, groups, alternation, escapes and anchors
are outside the model and parse to `none`, as do the invalid patterns on
which `re` raises. -/
def parsePiecesAux : List Char → Option (List Piece)
  | [] => some []
  | [c] => (parseBase c).map (fun b => [Piece.one b])
  | c :: q :: rest2 =>
    match parseBase c with
    | none => none
    | some b =>
      match quantOf q b with
      | some p => (parsePiecesAux rest2).map (fun ps => p :: ps)
      | none => (parsePiecesAux (q :: rest2)).map (fun ps => Piece.one b :: ps)

/-- Case-insensitive match (`re.IGNORECASE`) of one atom against one
character. -/
def baseMatchCI (b : Base) (c : Char) : Bool :=
  match b with
  | Base.lit d => d.toLower == c.toLower
  | Base.dot => !(c == '\n')

/-- Fuelled matcher: does the piece list match some prefix of the characters?
Fuel `ps.length + cs.length + 1` always suffices, because every step shortens
the pattern or the text. -/
def matchPreF : Nat → List Piece → List Char → Bool
  | 0, _, _ => false
  | _ + 1, [], _ => true
  | f + 1, Piece.one b :: ps, cs =>
    match cs with
    | [] => false
    | c :: cs2 => baseMatchCI b c && matchPreF f ps cs2
  | f + 1, Piece.opt b :: ps, cs =>
    matchPreF f ps cs ||
      (match cs with
       | [] => false
       | c :: cs2 => baseMatchCI b c && matchPreF f ps cs2)
  | f + 1, Piece.plus b :: ps, cs =>
    (match cs with
     | [] => false
     | c :: cs2 => baseMatchCI b c && matchPreF f (Piece.star b :: ps) cs2)
  | f + 1, Piece.star b :: ps, cs =>
    matchPreF f ps cs ||
      (match cs with
       | [] => false
       | c :: cs2 => baseMatchCI b c && matchPreF f (Piece.star b :: ps) cs2)

/-- Boolean result of `re.search` under `re.IGNORECASE`: the pattern matches
starting at some position of the text. -/
def regexSearch (ps : List Piece) (cs : List Char) : Bool :=
  cs.tails.any (fun suf => matchPreF (ps.length + suf.length + 1) ps suf)

/-- One row's search hit, line 356: every cell is rendered as text by
`astype(str)` and the term is interpreted as a case-insensitive regular
expression, because `str.contains` defaults to `regex=True`; `na=False` is
vacuous since `astype(str)` leaves no missing values. -/
def rowSearchHit (t : Table) (term : String) (r : List Cell) : Bool :=
  match parsePiecesAux term.toList with
  | some ps => (rowRender t r).any (fun txt => regexSearch ps txt.toList)
  | none => false

/-- The Data Table search of `main`: with a non-empty term, keep the rows
where some column's text rendering has a regex match of the term
(`df.astype(str).apply(lambda x: x.str.contains(search_term, case=False,
na=False)).any(axis=1)`); the `if search_term:` guard skips the mask for the
empty term. -/
def applySearch (t : Table) (term : String) : Table :=
  if term = "" then t
  else { t with rows := t.rows.filter (fun r => rowSearchHit t term r) }

/-- Column projection `df[selected_columns]`. -/
def selectColumns (t : Table) (sel : List String) : Table :=
  { cols := sel, rows := t.rows.map (fun r => sel.map (fun c => lookupCell t.cols r c)) }

/-- The Data Table panel view that is displayed and exported: the search mask,
then the column narrowing, which the source skips when the multi-select is
empty (`if selected_columns: display_df = display_df[selected_columns]`). -/
def dataTableView (t : Table) (term : String) (sel : List String) : Table :=
  if sel.isEmpty then applySearch t term else selectColumns (applySearch t term) sel

/-- Rendering of one cell by `to_csv`: a missing value (NaN or NaT) becomes
the empty field. -/
def csvCellStr : Cell → String
  | Cell.missing => ""
  | Cell.missingDate => ""
  | c => cellStr c

/-- Lines of `display_df.to_csv(index=False)`: the header line followed by one
line per row. -/
def toCsvLines (t : Table) : List String :=
  String.intercalate "," t.cols ::
    t.rows.map (fun r => String.intercalate "," (r.map csvCellStr))

/-- Group sizes `keys.groupby(...).size()`: one entry per distinct key with
the number of its occurrences.  (pandas drops missing keys before grouping;
callers pass the already non-missing key list.) -/
def groupSizes {K : Type} [DecidableEq K] (keys : List K) : List (K × Nat) :=
  keys.dedup.map (fun k => (k, keys.count k))

/-- Per-building row counts, `df.groupby('Building').size()` (the Overview
tab's `value_counts` and the Location tab's `groupby ... size` count the same
groups; descending ordering and the top-10 cut happen after counting). -/
def buildingCounts (t : Table) : List (String × Nat) :=
  groupSizes (dropnaStrs t "Building")

/-- Parse a digit string into a number; any non-digit character makes the
string unparsable. -/
def natOfDigits : List Char → Option Nat
  | [] => none
  | cs =>
    if cs.all Char.isDigit then
      some (cs.foldl (fun acc c => acc * 10 + (c.toNat - 48)) 0)
    else none

/-- Parse optionally signed integer text, the numeric text accepted by
`pd.to_numeric` on whole-number strings. -/
def intOfText (s : String) : Option Int :=
  match s.toList with
  | '-' :: cs => (natOfDigits cs).map (fun n => -(n : Int))
  | cs => (natOfDigits cs).map (fun n => (n : Int))

/-- Numeric coercion `pd.to_numeric(x, errors='coerce')` of one cell:
numbers stay, numeric text parses, everything else is missing. -/
def cellToNum : Cell → Option Int
  | Cell.num n => some n
  | Cell.str s => intOfText s
  | _ => none

/-- The parsable values of a numeric column after coercion,
`pd.to_numeric(df[c], errors='coerce').dropna()`. -/
def numericNonMissing (t : Table) (c : String) : List Int :=
  (colCells t c).filterMap cellToNum

/-- The Total Amount Depreciated metric of the Financial tab, `some` total
when it is displayed and `none` when the source never reaches the metric.
The source computes it inside `if 'Depreciated Value' in df.columns:` and
`if not dep_data.empty:`, summing the coerced column over all filtered rows
with `skipna` semantics (`df['Amount Depreciated'].sum()`). -/
def amountDepreciatedDisplay (t : Table) : Option Int :=
  if "Depreciated Value" ∈ t.cols then
    if numericNonMissing t "Depreciated Value" ≠ [] then
      if "Amount Depreciated" ∈ t.cols then
        some (numericNonMissing t "Amount Depreciated").sum
      else none
    else none
  else none

/-- Date coercion `pd.to_datetime(x, errors='coerce')` on the loaded table:
the Date Added column already holds parsed timestamps or NaT after
`load_data`, and re-coercion is the identity on them. -/
def cellToDate : Cell → Option (Nat × Nat × Nat)
  | Cell.date y m d => some (y, m, d)
  | _ => none

/-- The parsed dates of the rows kept by
`df.dropna(subset=['Date Added'])`, one key per kept row. -/
def parsedDates (t : Table) : List (Nat × Nat × Nat) :=
  (colCells t "Date Added").filterMap cellToDate

/-- Daily additions `df_with_date.groupby('Date').size()` (the chronological
sort for display permutes the entries only). -/
def dailyAdditions (t : Table) : List ((Nat × Nat × Nat) × Nat) :=
  groupSizes (parsedDates t)

/-- Monthly additions grouped by `dt.to_period('M')`, keyed by calendar
year-month (the source renders the period as text, an injective rendering of
the pair). -/
def monthlyAdditions (t : Table) : List ((Nat × Nat) × Nat) :=
  groupSizes ((parsedDates t).map (fun d => (d.1, d.2.1)))

/-- Test that a cell is a non-missing text value. -/
def isTextCell : Cell → Bool
  | Cell.str _ => true
  | _ => false

/-- The per-selector option lists computed during the sidebar pass, plus the
resulting Filtered View. -/
structure SidebarResult where
  companyOptions : List String
  buildingOptions : List String
  roomOptions : List String
  statusOptions : List String
  activeOptionList : List String
  filtered : Table
deriving DecidableEq, Repr

/-- The whole sidebar pass of `main`: `df` is reassigned after every filter
block, so each selector's option list is computed from the table as already
narrowed by the filters above it.  An absent column contributes no selector,
modelled as an empty option list. -/
def runSidebar (t : Table) (s : Selections) : SidebarResult :=
  let companyOpts := if "Company" ∈ t.cols then selectorOptions t "Company" else []
  let t1 := applyCatFilter t "Company" s.company
  let buildingOpts := if "Building" ∈ t1.cols then selectorOptions t1 "Building" else []
  let t2 := applyCatFilter t1 "Building" s.building
  let roomOpts := if "Room Name" ∈ t2.cols then selectorOptions t2 "Room Name" else []
  let t3 := applyCatFilter t2 "Room Name" s.room
  let statusOpts := if "Status" ∈ t3.cols then selectorOptions t3 "Status" else []
  let t4 := applyCatFilter t3 "Status" s.status
  let activeOpts := if "Active" ∈ t4.cols then activeOptions else []
  let t5 := applyCatFilter t4 "Active" s.active
  ⟨companyOpts, buildingOpts, roomOpts, statusOpts, activeOpts, t5⟩

/-- The all-sentinel selection: every selectbox left at `All`. -/
def allAllSelections : Selections := ⟨"All", "All", "All", "All", "All"⟩

/-- Example asset table: two rows, one per company, used by the search and
narrowing witnesses. -/
def narrowExample : Table :=
  ⟨["Company", "Building"],
   [[Cell.str "Acme", Cell.str "B1"], [Cell.str "Globex", Cell.str "B2"]]⟩

/-- Selections choosing the company Acme and leaving the rest at `All`. -/
def narrowSelections : Selections := ⟨"Acme", "All", "All", "All", "All"⟩

/-- Example table for the search claim: an integer Cost column. -/
def searchExample : Table :=
  ⟨["Cost"], [[Cell.num 1234], [Cell.num 56]]⟩

/-- Example table for the search counterexample: one text column whose only
value contains no literal dot. -/
def dotExample : Table := ⟨["Description"], [[Cell.str "abc"]]⟩

/-- Example table whose Active column holds a value outside Yes and No. -/
def activeExample : Table := ⟨["Active"], [[Cell.str "Maybe"]]⟩

/-- Example table with a row whose Building value is missing. -/
def missingBuildingExample : Table :=
  ⟨["Building"], [[Cell.str "A"], [Cell.missing]]⟩

/-- Example table in which every row has a Building value. -/
def fullBuildingExample : Table :=
  ⟨["Building"], [[Cell.str "A"], [Cell.str "B"], [Cell.str "A"]]⟩

/-- Example table with an Amount Depreciated column but no Depreciated Value
column. -/
def adOnlyExample : Table := ⟨["Amount Depreciated"], [[Cell.num 5]]⟩

/-- Example table with both depreciation columns, one Amount Depreciated cell
unparsable. -/
def depExample : Table :=
  ⟨["Depreciated Value", "Amount Depreciated"],
   [[Cell.num 100, Cell.num 40], [Cell.num 50, Cell.str "bad"]]⟩

/-- Example table with parsed and missing Date Added values across two
months. -/
def timelineExample : Table :=
  ⟨["Date Added"],
   [[Cell.date 2024 1 5], [Cell.date 2024 1 9], [Cell.date 2024 2 1], [Cell.missingDate]]⟩

/-- Example table for the export claim. -/
def exportExample : Table :=
  ⟨["Asset ID", "Building"], [[Cell.num 1, Cell.str "A"]]⟩

/-! Helper lemmas about the filter pipeline. -/

theorem applyCatFilter_cols (t : Table) (c sel : String) :
    (applyCatFilter t c sel).cols = t.cols := by
  unfold applyCatFilter
  split <;> rfl

theorem mem_applyCatFilter (t : Table) (c sel : String) (r : List Cell) :
    r ∈ (applyCatFilter t c sel).rows ↔ r ∈ t.rows ∧ rowPass t.cols c sel r := by
  unfold applyCatFilter rowPass
  split
  case isTrue h =>
    simp only [filterEq, List.mem_filter]
    constructor
    · rintro ⟨hr, hp⟩
      exact ⟨hr, fun _ _ => hp⟩
    · rintro ⟨hr, hp⟩
      exact ⟨hr, hp h.1 h.2⟩
  case isFalse h =>
    constructor
    · intro hr
      exact ⟨hr, fun hc hs => absurd ⟨hc, hs⟩ h⟩
    · exact fun hr => hr.1

theorem cellEqStr_eq_true_iff (x : Cell) (v : String) :
    cellEqStr x v = true ↔ x = Cell.str v := by
  cases x <;> simp [cellEqStr]

theorem applyCatFilter_rows_sublist (t : Table) (c sel : String) :
    List.Sublist (applyCatFilter t c sel).rows t.rows := by
  unfold applyCatFilter
  split
  · exact List.filter_sublist t.rows
  · exact List.Sublist.refl t.rows

theorem applySidebarFilters_cols (t : Table) (s : Selections) :
    (applySidebarFilters t s).cols = t.cols := by
  unfold applySidebarFilters
  simp [applyCatFilter_cols]

theorem mem_dropnaStrs (t : Table) (c : String) (v : String) :
    v ∈ dropnaStrs t c ↔ Cell.str v ∈ colCells t c := by
  unfold dropnaStrs
  rw [List.mem_filterMap]
  constructor
  · rintro ⟨x, hx, hv⟩
    cases x <;> simp_all
  · intro hv
    exact ⟨Cell.str v, hv, rfl⟩

theorem mem_selectorOptions (t : Table) (c : String) (v : String) (hv : v ≠ "All") :
    v ∈ selectorOptions t c ↔ Cell.str v ∈ colCells t c := by
  unfold selectorOptions
  rw [List.mem_cons]
  simp only [hv, false_or, List.mem_insertionSort, List.mem_dedup]
  exact mem_dropnaStrs t c v

theorem colCells_of_not_mem (t : Table) (c : String) (h : c ∉ t.cols) (x : Cell) :
    x ∈ colCells t c → x = Cell.missing := by
  intro hx
  rcases List.mem_map.mp hx with ⟨r, _, hr⟩
  have hidx : t.cols.indexOf? c = none := by
    rw [List.indexOf?_eq_none_iff]
    simp only [beq_iff_eq]
    intro x hx hxc
    exact h (hxc ▸ hx)
  rw [← hr]
  unfold lookupCell
  rw [hidx]

theorem mem_optionList (u : Table) (c v : String) (hv : v ≠ "All") :
    (v ∈ if c ∈ u.cols then selectorOptions u c else []) ↔ Cell.str v ∈ colCells u c := by
  split
  case isTrue => exact mem_selectorOptions u c v hv
  case isFalse h =>
    simp only [List.not_mem_nil, false_iff]
    intro hmem
    exact absurd (colCells_of_not_mem u c h _ hmem) (by simp)

theorem sum_groupSizes {K : Type} [DecidableEq K] (keys : List K) :
    ((groupSizes keys).map Prod.snd).sum = keys.length := by
  have h := List.sum_map_count_dedup_eq_length keys
  simpa [groupSizes, List.map_map, Function.comp] using h

theorem length_filterMap_of_all_some {α β : Type} (f : α → Option β) :
    ∀ l : List α, (∀ x ∈ l, (f x).isSome) → (l.filterMap f).length = l.length
  | [], _ => rfl
  | a :: l, h => by
    have ha := h a (List.mem_cons_self a l)
    cases hfa : f a with
    | none => rw [hfa] at ha; simp at ha
    | some b =>
      have ih := length_filterMap_of_all_some f l (fun x hx => h x (List.mem_cons_of_mem a hx))
      simp [List.filterMap_cons, hfa, ih]

theorem listAny_congr {α : Type} (p q : α → Bool) :
    ∀ l : List α, (∀ x ∈ l, p x = q x) → l.any p = l.any q
  | [], _ => rfl
  | a :: l, h => by
    simp only [List.any_cons]
    rw [h a (List.mem_cons_self a l),
      listAny_congr p q l (fun x hx => h x (List.mem_cons_of_mem a hx))]

theorem tails_map {α β : Type} (f : α → β) :
    ∀ l : List α, (l.map f).tails = l.tails.map (List.map f)
  | [] => rfl
  | a :: l => by simp [List.tails, tails_map f l]

theorem matchPreF_literal :
    ∀ (lits cs : List Char) (f : Nat), lits.length < f →
      matchPreF f (lits.map (fun c => Piece.one (Base.lit c))) cs =
        (lits.map Char.toLower).isPrefixOf (cs.map Char.toLower)
  | [], cs, f, hf => by
    cases f with
    | zero => omega
    | succ f => simp [matchPreF]
  | a :: l, cs, f, hf => by
    cases f with
    | zero => omega
    | succ f =>
      have hf2 : l.length < f := by
        simp only [List.length_cons] at hf
        omega
      cases cs with
      | nil => simp [matchPreF]
      | cons c cs2 =>
        have ih := matchPreF_literal l cs2 f hf2
        simp [matchPreF, baseMatchCI, List.isPrefixOf_cons₂, ih]

theorem parseBase_of_not_meta (c : Char) (h : isMetaChar c = false) :
    parseBase c = some (Base.lit c) := by
  have hdot : ¬((c == '.') = true) := by
    intro hc
    have hce : c = '.' := by simpa using hc
    subst hce
    simp [isMetaChar] at h
  unfold parseBase
  rw [if_neg hdot, if_neg (by simp [h])]

theorem beq_false_of_not_meta (q d : Char) (hd : isMetaChar d = true)
    (hq : isMetaChar q = false) : (q == d) = false := by
  cases hqd : q == d with
  | false => rfl
  | true =>
    have hqe : q = d := by simpa using hqd
    subst hqe
    rw [hq] at hd
    simp at hd

theorem quantOf_none (q : Char) (hq : isMetaChar q = false) (b : Base) :
    quantOf q b = none := by
  unfold quantOf
  rw [if_neg (by simp [beq_false_of_not_meta q '*' (by decide) hq]),
    if_neg (by simp [beq_false_of_not_meta q '+' (by decide) hq]),
    if_neg (by simp [beq_false_of_not_meta q '?' (by decide) hq])]

theorem parsePieces_literal :
    ∀ l : List Char, (∀ c ∈ l, isMetaChar c = false) →
      parsePiecesAux l = some (l.map (fun c => Piece.one (Base.lit c)))
  | [], _ => rfl
  | [c], h => by
    simp [parsePiecesAux, parseBase_of_not_meta c (h c (List.mem_cons_self c []))]
  | c :: q :: rest2, h => by
    have hc := h c (List.mem_cons_self c (q :: rest2))
    have hq := h q (List.mem_cons_of_mem c (List.mem_cons_self q rest2))
    have ih := parsePieces_literal (q :: rest2) (fun x hx => h x (List.mem_cons_of_mem c hx))
    simp [parsePiecesAux, parseBase_of_not_meta c hc, quantOf_none q hq, ih]

theorem regexSearch_literal (term hay : String) :
    regexSearch (term.toList.map (fun c => Piece.one (Base.lit c))) hay.toList =
      strContainsCI hay term := by
  unfold regexSearch strContainsCI lowerChars
  rw [tails_map Char.toLower hay.toList, List.any_map]
  apply listAny_congr
  intro suf hsuf
  simp only [Function.comp]
  rw [matchPreF_literal term.toList suf
    ((term.toList.map (fun c => Piece.one (Base.lit c))).length + suf.length + 1)
    (by simp only [List.length_map]; omega)]

theorem rowSearchHit_literal (t : Table) (term : String)
    (hlit : ∀ c ∈ term.toList, isMetaChar c = false) (r : List Cell) :
    rowSearchHit t term r = (rowRender t r).any (fun txt => strContainsCI txt term) := by
  unfold rowSearchHit
  rw [parsePieces_literal term.toList hlit]
  apply listAny_congr
  intro txt htxt
  exact regexSearch_literal term txt

/-! Claim theorems. -/

/-- C1: the five sidebar filters compose conjunctively in the fixed order
Company, Building, Room Name, Status, Active: a row is in the Filtered View
exactly when it is an input row passing every active filter (so a row with
`C = V` is retained unless a previously applied filter removed it), and any
row passing an active filter on column `C` with selection `V` has `C`-value
exactly `V`. -/
theorem C1_filters_conjunctive (t : Table) (s : Selections) :
    (∀ r : List Cell, r ∈ (applySidebarFilters t s).rows ↔
      r ∈ t.rows ∧ rowPass t.cols "Company" s.company r ∧
        rowPass t.cols "Building" s.building r ∧ rowPass t.cols "Room Name" s.room r ∧
        rowPass t.cols "Status" s.status r ∧ rowPass t.cols "Active" s.active r) ∧
    (∀ (c sel : String) (r : List Cell), c ∈ t.cols → sel ≠ "All" →
      rowPass t.cols c sel r → lookupCell t.cols r c = Cell.str sel) := by
  constructor
  · intro r
    unfold applySidebarFilters
    rw [mem_applyCatFilter, mem_applyCatFilter, mem_applyCatFilter, mem_applyCatFilter,
      mem_applyCatFilter]
    simp only [applyCatFilter_cols]
    tauto
  · intro c sel r hc hs hp
    exact (cellEqStr_eq_true_iff _ _).mp (hp hc hs)

/-- C1 witness: on a concrete table, filtering the company to Acme keeps
exactly the Acme row, through the full five-filter pipeline. -/
theorem C1_filters_conjunctive_witness :
    [Cell.str "Acme", Cell.str "B1"] ∈ (applySidebarFilters narrowExample narrowSelections).rows :=
  ((C1_filters_conjunctive narrowExample narrowSelections).1
    [Cell.str "Acme", Cell.str "B1"]).mpr (by decide)

/-- C7: for every table and selections, the Filtered View keeps the column
set of the loaded table unchanged and its row list is a sublist of the loaded
rows: no row is synthesized, and no row occurs more often than in the
input. -/
theorem C7_filtered_view_subset (t : Table) (s : Selections) :
    (applySidebarFilters t s).cols = t.cols ∧
    List.Sublist (applySidebarFilters t s).rows t.rows ∧
    (∀ r : List Cell, List.count r (applySidebarFilters t s).rows ≤ List.count r t.rows) := by
  refine ⟨applySidebarFilters_cols t s, ?_, ?_⟩
  · unfold applySidebarFilters
    exact ((((applyCatFilter_rows_sublist _ _ _).trans
      (applyCatFilter_rows_sublist _ _ _)).trans
      (applyCatFilter_rows_sublist _ _ _)).trans
      (applyCatFilter_rows_sublist _ _ _)).trans
      (applyCatFilter_rows_sublist _ _ _)
  · intro r
    apply List.Sublist.count_le
    unfold applySidebarFilters
    exact ((((applyCatFilter_rows_sublist _ _ _).trans
      (applyCatFilter_rows_sublist _ _ _)).trans
      (applyCatFilter_rows_sublist _ _ _)).trans
      (applyCatFilter_rows_sublist _ _ _)).trans
      (applyCatFilter_rows_sublist _ _ _)

/-- C8: applying the Data Table search with the empty term is the identity on
the filtered table. -/
theorem C8_empty_search_identity (t : Table) : applySearch t "" = t := by
  simp [applySearch]

/-- C2 counterexample: the search term is handed to `str.contains` with its
`regex=True` default, so the term consisting of a single dot retains a row
none of whose cells' text renderings contain a dot: retention is not the
case-insensitive substring test the claim states. -/
theorem C2_search_counterexample :
    [Cell.str "abc"] ∈ (applySearch dotExample ".").rows ∧
      (∀ txt ∈ rowRender dotExample [Cell.str "abc"],
        strContainsCI txt "." = false) := by
  decide

/-- C2 amended: search terms are interpreted as case-insensitive regular
expressions, not literal substrings.  For every non-empty term free of regex
metacharacters, a row is retained exactly when at least one column's text
rendering of the row contains the term as a case-insensitive substring,
numeric and date renderings included. -/
theorem C2_search_amended (t : Table) (term : String) (h : term ≠ "")
    (hlit : ∀ c ∈ term.toList, isMetaChar c = false) (r : List Cell) :
    r ∈ (applySearch t term).rows ↔
      r ∈ t.rows ∧ ∃ txt ∈ rowRender t r, strContainsCI txt term = true := by
  unfold applySearch
  rw [if_neg h]
  simp only [List.mem_filter, rowSearchHit_literal t term hlit, List.any_eq_true]

/-- C2 amended witness: the term 23 is metacharacter-free and matches only
the text rendering of the numeric cell 1234; exactly that row is kept. -/
theorem C2_search_amended_witness :
    [Cell.num 1234] ∈ (applySearch searchExample "23").rows :=
  (C2_search_amended searchExample "23" (by decide) (by decide) [Cell.num 1234]).mpr
    (by decide)

/-- C3 counterexample: with the column multi-select emptied, the source skips
the projection (`if selected_columns:`), so the exported view keeps all
columns of the table instead of the selected (empty) column set. -/
theorem C3_export_counterexample :
    (dataTableView exportExample "" []).cols ≠ ([] : List String) := by
  decide

/-- C3 amended: for every non-empty column selection, the exported view has
exactly the selected columns, and its rows are exactly the rows passing the
sidebar filters and the search term, projected to the selected columns; the
CSV has one line per such row plus the header. -/
theorem C3_export_amended (t : Table) (s : Selections) (term : String)
    (sel : List String) (hsel : sel ≠ []) :
    (dataTableView (applySidebarFilters t s) term sel).cols = sel ∧
    (dataTableView (applySidebarFilters t s) term sel).rows =
      (applySearch (applySidebarFilters t s) term).rows.map
        (fun r => sel.map (fun c => lookupCell (applySidebarFilters t s).cols r c)) ∧
    (toCsvLines (dataTableView (applySidebarFilters t s) term sel)).length =
      (applySearch (applySidebarFilters t s) term).rows.length + 1 := by
  have hcols : (applySearch (applySidebarFilters t s) term).cols =
      (applySidebarFilters t s).cols := by
    unfold applySearch
    split <;> rfl
  cases sel with
  | nil => exact absurd rfl hsel
  | cons a l =>
    refine ⟨rfl, ?_, ?_⟩
    · simp [dataTableView, selectColumns, hcols]
    · simp [dataTableView, selectColumns, toCsvLines, hcols]

/-- C3 amended witness: exporting the example table with the Building column
selected yields exactly that column and the one matching row. -/
theorem C3_export_amended_witness :
    (dataTableView (applySidebarFilters exportExample allAllSelections) "" ["Building"]).cols
      = ["Building"] :=
  (C3_export_amended exportExample allAllSelections "" ["Building"] (by decide)).1

/-- C4 counterexample: the Active selector's option list is hard-coded to
All, Yes, No, and differs from the sorted distinct non-missing values of the
Active column with the sentinel prepended (here the column holds only the
value Maybe). -/
theorem C4_options_counterexample :
    "Active" ∈ activeExample.cols ∧
      activeOptions ≠ selectorOptions activeExample "Active" := by
  decide

/-- C4 amended: for the data-derived selectors (Company, Building, Room Name,
Status) the option list starts with the All sentinel followed by a sorted,
duplicate-free list containing exactly the non-missing values occurring in
the column; the Active selector's options are the fixed list All, Yes, No. -/
theorem C4_options_amended (t : Table) (c : String) :
    (selectorOptions t c).head? = some "All" ∧
    List.Sorted (· ≤ ·) (selectorOptions t c).tail ∧
    (selectorOptions t c).tail.Nodup ∧
    (∀ v : String, v ∈ (selectorOptions t c).tail ↔ Cell.str v ∈ colCells t c) ∧
    activeOptions = ["All", "Yes", "No"] := by
  refine ⟨rfl, ?_, ?_, ?_, rfl⟩
  · exact List.sorted_insertionSort (· ≤ ·) (dropnaStrs t c).dedup
  · exact ((List.perm_insertionSort (· ≤ ·) (dropnaStrs t c).dedup).nodup_iff).mpr
      (List.nodup_dedup (dropnaStrs t c))
  · intro v
    simp only [selectorOptions, List.tail_cons, List.mem_insertionSort, List.mem_dedup]
    exact mem_dropnaStrs t c v

/-- C5 counterexample: with a row whose Building value is missing, the
grouped per-building counts (pandas drops missing group keys) sum to less
than the Total Assets row count of the Filtered View. -/
theorem C5_counts_counterexample :
    ((buildingCounts (applySidebarFilters missingBuildingExample allAllSelections)).map
        Prod.snd).sum ≠
      (applySidebarFilters missingBuildingExample allAllSelections).rows.length := by
  decide

/-- C5 amended: the per-building grouped counts sum to the number of rows of
the Filtered View whose Building value is non-missing; when every row has a
Building value this equals the Total Assets row count. -/
theorem C5_counts_amended (t : Table) :
    ((buildingCounts t).map Prod.snd).sum = (dropnaStrs t "Building").length ∧
    ((∀ r ∈ t.rows, isTextCell (lookupCell t.cols r "Building") = true) →
      ((buildingCounts t).map Prod.snd).sum = t.rows.length) := by
  constructor
  · exact sum_groupSizes (dropnaStrs t "Building")
  · intro hall
    show ((groupSizes (dropnaStrs t "Building")).map Prod.snd).sum = t.rows.length
    rw [sum_groupSizes (dropnaStrs t "Building")]
    unfold dropnaStrs colCells
    rw [List.filterMap_map]
    have hlen := length_filterMap_of_all_some
      ((fun x => match x with | Cell.str s => some s | _ => none) ∘
        (fun r => lookupCell t.cols r "Building")) t.rows ?_
    · rw [hlen]
    · intro r hr
      have := hall r hr
      cases hx : lookupCell t.cols r "Building" <;>
        simp [isTextCell, hx, Function.comp] at this ⊢

/-- C5 amended witness: on a table where every row has a Building value, the
grouped counts sum to the total row count. -/
theorem C5_counts_amended_witness :
    ((buildingCounts fullBuildingExample).map Prod.snd).sum =
      fullBuildingExample.rows.length :=
  (C5_counts_amended fullBuildingExample).2 (by decide)

/-- C6 counterexample: with the Amount Depreciated column present but the
Depreciated Value column absent, the source never reaches the Total Amount
Depreciated metric, because that metric is nested inside the
`if 'Depreciated Value' in df.columns:` and `if not dep_data.empty:`
branches. -/
theorem C6_amount_dep_counterexample :
    "Amount Depreciated" ∈ adOnlyExample.cols ∧
      amountDepreciatedDisplay adOnlyExample = none := by
  decide

/-- C6 amended: when the Depreciated Value column is present with at least
one parsable value and the Amount Depreciated column is present, the Total
Amount Depreciated metric is displayed as the sum of the parsable Amount
Depreciated values over all filtered rows, the unparsable cells being
excluded from this aggregate only. -/
theorem C6_amount_dep_amended (t : Table)
    (h1 : "Depreciated Value" ∈ t.cols)
    (h2 : numericNonMissing t "Depreciated Value" ≠ [])
    (h3 : "Amount Depreciated" ∈ t.cols) :
    amountDepreciatedDisplay t = some (numericNonMissing t "Amount Depreciated").sum := by
  unfold amountDepreciatedDisplay
  rw [if_pos h1, if_pos h2, if_pos h3]

/-- C6 amended witness: on the example table the metric is displayed and the
unparsable Amount Depreciated cell is excluded from the 40 total, while both
rows stay in the table. -/
theorem C6_amount_dep_amended_witness :
    amountDepreciatedDisplay depExample = some 40 :=
  (C6_amount_dep_amended depExample (by decide) (by decide) (by decide)).trans (by decide)

/-- C9: for every table with a Date Added column, the monthly timeline
buckets re-aggregate to the same total as the daily buckets: both sum to the
number of filtered rows with parsable dates. -/
theorem C9_timeline_totals (t : Table) (_h : "Date Added" ∈ t.cols) :
    ((monthlyAdditions t).map Prod.snd).sum = ((dailyAdditions t).map Prod.snd).sum := by
  show ((groupSizes ((parsedDates t).map (fun d => (d.1, d.2.1)))).map Prod.snd).sum =
    ((groupSizes (parsedDates t)).map Prod.snd).sum
  rw [sum_groupSizes, sum_groupSizes, List.length_map]

/-- C9 witness: on the example table both bucketings total the three rows
with parsable dates. -/
theorem C9_timeline_totals_witness :
    ((monthlyAdditions timelineExample).map Prod.snd).sum =
      ((dailyAdditions timelineExample).map Prod.snd).sum :=
  C9_timeline_totals timelineExample (by decide)

/-- C10: each sidebar selector's option list is derived from the table as
already narrowed by the earlier filters: a non-sentinel value is a Building
option exactly when it occurs in the Building column after the Company
filter, a Room option exactly when it occurs after the Company and Building
filters, and a Status option exactly when it occurs after the Company,
Building and Room filters. -/
theorem C10_options_narrowed (t : Table) (s : Selections) (v : String)
    (hv : v ≠ "All") :
    (v ∈ (runSidebar t s).buildingOptions ↔
      Cell.str v ∈ colCells (applyCatFilter t "Company" s.company) "Building") ∧
    (v ∈ (runSidebar t s).roomOptions ↔
      Cell.str v ∈ colCells
        (applyCatFilter (applyCatFilter t "Company" s.company) "Building" s.building)
        "Room Name") ∧
    (v ∈ (runSidebar t s).statusOptions ↔
      Cell.str v ∈ colCells
        (applyCatFilter (applyCatFilter (applyCatFilter t "Company" s.company)
          "Building" s.building) "Room Name" s.room) "Status") := by
  refine ⟨?_, ?_, ?_⟩
  · exact mem_optionList (applyCatFilter t "Company" s.company) "Building" v hv
  · exact mem_optionList
      (applyCatFilter (applyCatFilter t "Company" s.company) "Building" s.building)
      "Room Name" v hv
  · exact mem_optionList
      (applyCatFilter (applyCatFilter (applyCatFilter t "Company" s.company)
        "Building" s.building) "Room Name" s.room) "Status" v hv

/-- C10 witness: in the example table the Building B2 belongs only to the
company Globex, so after selecting Acme it is not offered as a Building
option even though it occurs in the loaded table. -/
theorem C10_options_narrowed_witness :
    "B2" ∉ (runSidebar narrowExample narrowSelections).buildingOptions :=
  fun hmem =>
    absurd ((C10_options_narrowed narrowExample narrowSelections "B2" (by decide)).1.mp hmem)
      (by decide)
